import Mathlib

/-!
Verification of the availability-monitoring core of the web_monitoring_bot
repository, shallowly embedded in Lean.

Conventions of the embedding:
- machine integers and Python ints are `Nat`/`Int`; Python floats are exact
  rationals (`Rat`); `datetime` timestamps are integer seconds (`Int`), so
  `(end - start).total_seconds()` becomes plain integer subtraction;
- fallible or exception-raising code is modelled with `Option`/`Except`;
- the configuration constants `FAILURE_THRESHOLD` and `TICK_DURATION`
  (environment variables with defaults 3 and 10) are explicit parameters.
-/

namespace WebMonitoring

/-- `utils.enums.ResponseStatus`: possible probe outcomes (OK = 0, TIMEOUT = 1,
DNS_ERROR = 2, UNAVAILABLE = 3). -/
inductive ResponseStatus where
  | ok
  | timeout
  | dns_error
  | unavailable
deriving DecidableEq, Repr

/-- `utils.enums.SiteStatus`: possible site statuses (UNAVAILABLE = 0,
AVAILABLE = 1). -/
inductive SiteStatus where
  | unavailable
  | available
deriving DecidableEq, Repr

/-- `task_manager.models.ResponseData`: data about one request to a URL. -/
structure ResponseData where
  url : String
  status : ResponseStatus
  timestamp : Int
  code : Option Nat := none
  response_time : Option Rat := none
deriving DecidableEq, Repr

/-- `task_manager.models.Notification`: ephemeral status-change event. -/
structure Notification where
  url : String
  status : SiteStatus
deriving DecidableEq, Repr

/-- The `(status, consecutive_failures)` part of a `db.models.Site` record,
the state read and written by `ServiceStatusManager.process_check_result`. -/
structure SiteState where
  status : SiteStatus
  failures : Nat
deriving DecidableEq, Repr

/-- The externally visible effect of one `process_check_result` call on an
existing site: the `update_site(url, status, failures)` write, if any, and the
notifications handed to `_notify_observers`, in order. -/
structure StepResult where
  write : Option (SiteStatus × Nat)
  notifs : List Notification
deriving DecidableEq, Repr

/-- `ServiceStatusManager.process_check_result` (src/task_manager/
service_status_manager.py, lines 52-85), for a site already present in the
database, as a function of the failure threshold `k`, the checked URL, the
current site state and the incoming check status.  Mirrors the source:
on OK, write `(AVAILABLE, 0)` and notify iff the site was UNAVAILABLE or had
a positive failure counter; otherwise increment the counter, flip to
UNAVAILABLE once the counter reaches `k`, and notify exactly on the
AVAILABLE-to-UNAVAILABLE edge. -/
def process_check_result (k : Nat) (url : String) (st : SiteState)
    (r : ResponseStatus) : StepResult :=
  if r = .ok then
    if st.status = .unavailable ∨ 0 < st.failures then
      ⟨some (.available, 0), [⟨url, .available⟩]⟩
    else
      ⟨none, []⟩
  else
    let failures := st.failures + 1
    let newStatus := if k ≤ failures then SiteStatus.unavailable else st.status
    ⟨some (newStatus, failures),
      if st.status = .available ∧ newStatus = .unavailable then
        [⟨url, .unavailable⟩]
      else []⟩

/-- The site state left in the database by a step: the written pair when
`update_site` was called, the unchanged state otherwise. -/
def applyWrite (st : SiteState) (w : Option (SiteStatus × Nat)) : SiteState :=
  match w with
  | some p => ⟨p.1, p.2⟩
  | none => st

/-- State persisted after one `process_check_result` call. -/
def step_state (k : Nat) (url : String) (st : SiteState)
    (r : ResponseStatus) : SiteState :=
  applyWrite st (process_check_result k url st r).write

/-- One fold step for a sequence of check results: threads the persisted site
state and accumulates the emitted notifications in order. -/
def procStep (k : Nat) (url : String) (acc : SiteState × List Notification)
    (r : ResponseStatus) : SiteState × List Notification :=
  let res := process_check_result k url acc.1 r
  (applyWrite acc.1 res.write, acc.2 ++ res.notifs)

/-- Processing a whole sequence of check results against one site. -/
def processSeq (k : Nat) (url : String) (st : SiteState)
    (rs : List ResponseStatus) : SiteState × List Notification :=
  rs.foldl (procStep k url) (st, [])

theorem procSeq_replicate_fail (k : Nat) (url : String) (r : ResponseStatus)
    (hr : r ≠ .ok) :
    ∀ (m j : Nat) (ns : List Notification), j + m < k →
      (List.replicate m r).foldl (procStep k url) (⟨.available, j⟩, ns)
        = (⟨.available, j + m⟩, ns) := by
  intro m
  induction m with
  | zero => intro j ns _; simp
  | succ m ih =>
    intro j ns hjm
    rw [List.replicate_succ, List.foldl_cons]
    have hk : ¬ k ≤ j + 1 := by omega
    have hstep : procStep k url (⟨.available, j⟩, ns) r
        = (⟨.available, j + 1⟩, ns) := by
      simp only [procStep, process_check_result, if_neg hr, hk, if_false,
        applyWrite]
      simp
    rw [hstep]
    have harith : j + (m + 1) = (j + 1) + m := by omega
    rw [harith]
    exact ih (j + 1) ns (by omega)

/-- C1. The claim as frozen is false on the code.  Two closed facts at the
default threshold 3: (a) one OK check processed against the existing state
(AVAILABLE, 1) persists status AVAILABLE — identical to the status before the
call — yet emits an AVAILABLE notification; (b) starting from (AVAILABLE, 0),
two failing checks followed by one OK check keep the persisted status
AVAILABLE at every step and nevertheless emit one notification. -/
theorem c1_edge_triggered_counterexample :
    process_check_result 3 "http://a" ⟨.available, 1⟩ .ok
        = ⟨some (.available, 0), [⟨"http://a", .available⟩]⟩
      ∧ processSeq 3 "http://a" ⟨.available, 0⟩ [.timeout, .timeout, .ok]
        = (⟨.available, 0⟩, [⟨"http://a", .available⟩])
      ∧ (processSeq 3 "http://a" ⟨.available, 0⟩ [.timeout]).1.status
        = .available
      ∧ (processSeq 3 "http://a" ⟨.available, 0⟩ [.timeout, .timeout]).1.status
        = .available := by
  refine ⟨rfl, rfl, rfl, rfl⟩

/-- C1 (amended). A notification is emitted iff the call persists a state
change: either the persisted Site.status differs from the status before the
call, or an OK result resets a positive failure counter (in which case an
AVAILABLE notification is emitted even though the status does not change).
Consequently, for every threshold k ≥ 2, processing (k-1) failing results
from (AVAILABLE, 0) keeps the status AVAILABLE with no notification at every
failing step, and the final OK step also leaves AVAILABLE but emits exactly
one AVAILABLE notification. -/
theorem c1_edge_triggered_amended :
    (∀ (k : Nat) (u : String) (st : SiteState) (r : ResponseStatus),
      (process_check_result k u st r).notifs ≠ []
        ↔ ((step_state k u st r).status ≠ st.status
            ∨ (r = .ok ∧ 0 < st.failures)))
    ∧ (∀ (k : Nat) (u : String) (r : ResponseStatus), r ≠ .ok → 2 ≤ k →
        (∀ m, m < k →
          processSeq k u ⟨.available, 0⟩ (List.replicate m r)
            = (⟨.available, m⟩, []))
        ∧ processSeq k u ⟨.available, 0⟩ (List.replicate (k - 1) r ++ [.ok])
            = (⟨.available, 0⟩, [⟨u, .available⟩])) := by
  constructor
  · intro k u st r
    by_cases hr : r = .ok
    · subst hr
      by_cases hc : st.status = .unavailable ∨ 0 < st.failures
      · simp only [process_check_result, if_pos rfl, if_pos hc, step_state,
          applyWrite]
        rcases hc with hc | hc
        · simp [hc]
        · rcases hst : st.status with _ | _ <;> simp [hst, hc]
      · simp only [process_check_result, if_pos rfl, if_neg hc, step_state,
          applyWrite]
        push_neg at hc
        have h0 : st.failures = 0 := Nat.le_zero.mp hc.2
        simp [h0]
    · by_cases hk : k ≤ st.failures + 1
      · simp only [process_check_result, if_neg hr, if_pos hk, step_state,
          applyWrite]
        rcases hst : st.status with _ | _ <;> simp [hst, hr]
      · simp only [process_check_result, if_neg hr, if_neg hk, step_state,
          applyWrite]
        rcases hst : st.status with _ | _ <;> simp [hst, hr]
  · intro k u r hr hk
    constructor
    · intro m hm
      unfold processSeq
      have hfold := procSeq_replicate_fail k u r hr m 0 [] (by omega)
      simpa using hfold
    · unfold processSeq
      rw [List.foldl_append]
      rw [procSeq_replicate_fail k u r hr (k - 1) 0 [] (by omega)]
      have hpos : 0 < (0 : Nat) + (k - 1) := by omega
      have hko : ¬ ((⟨.available, 0 + (k - 1)⟩ : SiteState).status
          = .unavailable) := by simp
      simp only [List.foldl_cons, List.foldl_nil, procStep,
        process_check_result, if_pos rfl]
      rw [if_pos (Or.inr hpos)]
      simp [applyWrite]

/-- Witness for `c1_edge_triggered_amended` at k = 3, state (AVAILABLE, 2),
a TIMEOUT run of length 2 followed by OK. -/
theorem c1_edge_triggered_witness :
    ((process_check_result 3 "u" ⟨.available, 2⟩ .ok).notifs ≠ []
      ↔ ((step_state 3 "u" ⟨.available, 2⟩ .ok).status ≠ SiteStatus.available
          ∨ (ResponseStatus.ok = .ok ∧ 0 < 2)))
    ∧ processSeq 3 "u" ⟨.available, 0⟩ (List.replicate 2 .timeout ++ [.ok])
        = (⟨.available, 0⟩, [⟨"u", .available⟩]) :=
  ⟨c1_edge_triggered_amended.1 3 "u" ⟨.available, 2⟩ .ok,
    (c1_edge_triggered_amended.2 3 "u" .timeout (by decide) (by decide)).2⟩

/-- C2. For every non-OK check result processed against state
(status, failures), the code calls update_site with exactly
(UNAVAILABLE, failures + 1) when failures + 1 reaches the threshold k and
(status, failures + 1) otherwise, and it emits a notification — which is
exactly [(url, UNAVAILABLE)] — iff the prior status was AVAILABLE and the
persisted status is UNAVAILABLE. -/
theorem c2_failure_transition (k : Nat) (u : String) (st : SiteState)
    (r : ResponseStatus) (hr : r ≠ .ok) :
    (process_check_result k u st r).write
      = some (if k ≤ st.failures + 1 then SiteStatus.unavailable
              else st.status, st.failures + 1)
    ∧ ((process_check_result k u st r).notifs ≠ []
        ↔ (st.status = .available
            ∧ (step_state k u st r).status = .unavailable))
    ∧ ((process_check_result k u st r).notifs = []
        ∨ (process_check_result k u st r).notifs = [⟨u, .unavailable⟩]) := by
  by_cases hk : k ≤ st.failures + 1
  · simp only [process_check_result, if_neg hr, if_pos hk, step_state,
      applyWrite]
    rcases hst : st.status with _ | _ <;> simp [hst]
  · simp only [process_check_result, if_neg hr, if_neg hk, step_state,
      applyWrite]
    rcases hst : st.status with _ | _ <;> simp [hst]

/-- Witness for `c2_failure_transition`: a TIMEOUT at k = 3 against
(AVAILABLE, 2) persists (UNAVAILABLE, 3) and notifies. -/
theorem c2_failure_transition_witness :
    (process_check_result 3 "u" ⟨.available, 2⟩ .timeout).write
      = some (if 3 ≤ 2 + 1 then SiteStatus.unavailable
              else SiteStatus.available, 2 + 1)
    ∧ ((process_check_result 3 "u" ⟨.available, 2⟩ .timeout).notifs ≠ []
        ↔ (SiteStatus.available = .available
            ∧ (step_state 3 "u" ⟨.available, 2⟩ .timeout).status
                = .unavailable))
    ∧ ((process_check_result 3 "u" ⟨.available, 2⟩ .timeout).notifs = []
        ∨ (process_check_result 3 "u" ⟨.available, 2⟩ .timeout).notifs
            = [⟨"u", .unavailable⟩]) :=
  c2_failure_transition 3 "u" ⟨.available, 2⟩ .timeout (by decide)

/-- C3. For every OK check result processed against state (status, failures):
when failures > 0 or status is UNAVAILABLE the code persists (AVAILABLE, 0)
and emits exactly one (url, AVAILABLE) notification, however large failures
was; otherwise it performs no write and emits no notification. -/
theorem c3_recovery_transition (k : Nat) (u : String) (st : SiteState) :
    (0 < st.failures ∨ st.status = .unavailable →
      process_check_result k u st .ok
        = ⟨some (.available, 0), [⟨u, .available⟩]⟩)
    ∧ (st.failures = 0 ∧ st.status = .available →
      process_check_result k u st .ok = ⟨none, []⟩) := by
  constructor
  · intro h
    rcases h with h | h
    · simp [process_check_result, h]
    · simp [process_check_result, h]
  · rintro ⟨h0, ha⟩
    simp [process_check_result, ha, h0]

/-- Witness for `c3_recovery_transition`: recovery from (UNAVAILABLE, 7)
at k = 3 persists (AVAILABLE, 0) with one notification, and an OK on a
healthy (AVAILABLE, 0) site writes nothing and notifies nobody. -/
theorem c3_recovery_transition_witness :
    process_check_result 3 "u" ⟨.unavailable, 7⟩ .ok
      = ⟨some (.available, 0), [⟨"u", .available⟩]⟩
    ∧ process_check_result 3 "u" ⟨.available, 0⟩ .ok = ⟨none, []⟩ :=
  ⟨(c3_recovery_transition 3 "u" ⟨.unavailable, 7⟩).1 (by decide),
    (c3_recovery_transition 3 "u" ⟨.available, 0⟩).2 (by decide)⟩

/-- An observer subscribed to the status manager, abstracted by its name and
by the outcome of awaiting its `notify` coroutine for the one notification
being delivered: `Except.ok ()` if `notify` returns, `Except.error ()` if it
raises. -/
structure BusObserver where
  name : String
  delivery : Except Unit Unit
deriving Repr

/-- `ServiceStatusManager._notify_observers` (src/task_manager/
service_status_manager.py, lines 41-50): a plain `for` loop awaiting each
observer's `notify` in subscription order, with no exception handling
(`ServiceStatusManager` does not use `ExceptionHandlingMeta`).  Returns the
names of the observers whose `notify` completed, or propagates the first
raised exception to the caller. -/
def notify_observers : List BusObserver → Except Unit (List String)
  | [] => .ok []
  | o :: rest =>
    match o.delivery with
    | .error e => .error e
    | .ok _ =>
      match notify_observers rest with
      | .error e => .error e
      | .ok names => .ok (o.name :: names)

/-- C4. The claim as frozen is false on the code: with two subscribed
observers of which the first raises on delivery, `_notify_observers`
propagates the exception to the publisher (the whole call errors), so the
second observer is never notified. -/
theorem c4_observer_isolation_counterexample :
    notify_observers [⟨"first", .error ()⟩, ⟨"second", .ok ()⟩]
      = .error () := rfl

/-- C4 (amended). Delivery proceeds in subscription order only until the
first observer whose `notify` raises: all observers before it are delivered,
its exception propagates uncaught to the publisher, and no later observer is
notified; when every delivery succeeds, all observers are notified in
order. -/
theorem c4_observer_isolation_amended :
    (∀ (pre : List BusObserver) (o : BusObserver) (post : List BusObserver),
      (∀ p ∈ pre, p.delivery = .ok ()) → o.delivery = .error () →
        notify_observers (pre ++ o :: post) = .error ())
    ∧ (∀ obs : List BusObserver, (∀ o ∈ obs, o.delivery = .ok ()) →
        notify_observers obs = .ok (obs.map BusObserver.name)) := by
  constructor
  · intro pre o post hpre ho
    induction pre with
    | nil => simp [notify_observers, ho]
    | cons p rest ih =>
      have hp : p.delivery = .ok () := hpre p (by simp)
      have hrest : ∀ q ∈ rest, q.delivery = .ok () := by
        intro q hq; exact hpre q (by simp [hq])
      simp only [List.cons_append, notify_observers, hp, List.append_eq,
        ih hrest]
  · intro obs hobs
    induction obs with
    | nil => rfl
    | cons o rest ih =>
      have ho : o.delivery = .ok () := hobs o (by simp)
      have hrest : ∀ q ∈ rest, q.delivery = .ok () := by
        intro q hq; exact hobs q (by simp [hq])
      simp only [notify_observers, ho, ih hrest, List.map_cons]

/-- Witness for `c4_observer_isolation_amended`: one healthy observer before
a raising one, and a fully healthy pair. -/
theorem c4_observer_isolation_witness :
    notify_observers [⟨"a", .ok ()⟩, ⟨"b", .error ()⟩, ⟨"c", .ok ()⟩]
      = .error ()
    ∧ notify_observers [⟨"a", .ok ()⟩, ⟨"b", .ok ()⟩] = .ok ["a", "b"] :=
  ⟨c4_observer_isolation_amended.1 [⟨"a", .ok ()⟩] ⟨"b", .error ()⟩
      [⟨"c", .ok ()⟩]
      (by
        intro p hp
        simp only [List.mem_singleton] at hp
        subst hp; rfl)
      rfl,
    c4_observer_isolation_amended.2 [⟨"a", .ok ()⟩, ⟨"b", .ok ()⟩]
      (by
        intro o ho
        simp only [List.mem_cons, List.not_mem_nil, or_false] at ho
        rcases ho with h | h <;> (subst h; rfl))⟩

/-- `db.models.Monitor` (without the database `_id`): a user's subscription
to periodic checks of one URL at a given interval in seconds. -/
structure Monitor where
  user_id : Int
  url : String
  interval : Nat
deriving DecidableEq, Repr

/-- `DBHandler.get_monitors_urls_for_tick` (src/db/db_handler.py, lines
169-181): the distinct `url` values of monitor records satisfying
`(seconds % this.interval) == 0`.  Distinctness of the Mongo query is
modelled by `List.dedup`; the theorems only use set membership. -/
def get_monitors_urls_for_tick (monitors : List Monitor) (seconds : Nat) :
    List String :=
  ((monitors.filter (fun m => seconds % m.interval == 0)).map
    Monitor.url).dedup

/-- `Scheduler._urls_per_tick` (src/scheduler/scheduler.py, lines 29-40):
increments the tick counter (initialised to 0 in `Scheduler.__init__`), then
queries the due URLs for `ticks * TICK_DURATION` elapsed seconds.  Returns
the new counter together with the due list. -/
def urls_per_tick (tickDuration : Nat) (monitors : List Monitor)
    (ticks : Nat) : Nat × List String :=
  (ticks + 1, get_monitors_urls_for_tick monitors ((ticks + 1) * tickDuration))

/-- The scheduler's tick counter after `n` fired ticks, starting from the
initial value 0 set in `Scheduler.__init__`. -/
def ticks_after (tickDuration : Nat) (monitors : List Monitor) : Nat → Nat
  | 0 => 0
  | n + 1 => (urls_per_tick tickDuration monitors
      (ticks_after tickDuration monitors n)).1

/-- C6. The tick counter starts at 1 on the first fired tick and increases by
exactly 1 per fired tick (after n ticks it is n); on the tick fired with
prior counter s — i.e. tick number t = s + 1 — the due set contains a URL iff
some monitor has that URL and `(t * TICK_DURATION) % interval == 0`.  In
particular, with TICK_DURATION = 10 and a single monitor of interval 30, the
monitor is due on every tick 3·(j+1) (ticks 3, 6, 9, ...) and not on ticks
1, 2, 4 and 5. -/
theorem c6_tick_due_set :
    (∀ (T : Nat) (ms : List Monitor) (s : Nat),
      (urls_per_tick T ms s).1 = s + 1)
    ∧ (∀ (T : Nat) (ms : List Monitor) (n : Nat), ticks_after T ms n = n)
    ∧ (∀ (T : Nat) (ms : List Monitor) (s : Nat) (u : String),
        u ∈ (urls_per_tick T ms s).2
          ↔ ∃ m ∈ ms, m.url = u ∧ ((s + 1) * T) % m.interval = 0)
    ∧ (∀ j : Nat,
        "http://a" ∈ (urls_per_tick 10 [⟨1, "http://a", 30⟩] (3 * j + 2)).2)
    ∧ ("http://a" ∉ (urls_per_tick 10 [⟨1, "http://a", 30⟩] 0).2
        ∧ "http://a" ∉ (urls_per_tick 10 [⟨1, "http://a", 30⟩] 1).2
        ∧ "http://a" ∉ (urls_per_tick 10 [⟨1, "http://a", 30⟩] 3).2
        ∧ "http://a" ∉ (urls_per_tick 10 [⟨1, "http://a", 30⟩] 4).2) := by
  refine ⟨fun T ms s => rfl, ?_, ?_, ?_, by decide⟩
  · intro T ms n
    induction n with
    | zero => rfl
    | succ n ih => simp [ticks_after, urls_per_tick, ih]
  · intro T ms s u
    simp only [urls_per_tick, get_monitors_urls_for_tick, List.mem_dedup,
      List.mem_map, List.mem_filter]
    constructor
    · rintro ⟨m, ⟨hm, hdiv⟩, hurl⟩
      exact ⟨m, hm, hurl, by simpa using hdiv⟩
    · rintro ⟨m, hm, hurl, hdiv⟩
      exact ⟨m, ⟨hm, by simpa using hdiv⟩, hurl⟩
  · intro j
    simp only [urls_per_tick, get_monitors_urls_for_tick, List.mem_dedup,
      List.mem_map, List.mem_filter]
    refine ⟨⟨1, "http://a", 30⟩, ⟨by simp, ?_⟩, rfl⟩
    have h30 : (3 * j + 2 + 1) * 10 = 30 * (j + 1) := by ring
    simp [h30, Nat.mul_mod_right]

/-- Witness for `c6_tick_due_set`: the due-set membership equivalence
evaluated for tick 3 at TICK_DURATION 10 and interval 30. -/
theorem c6_tick_due_set_witness :
    "http://a" ∈ (urls_per_tick 10 [⟨1, "http://a", 30⟩] 2).2
      ↔ ∃ m ∈ [(⟨1, "http://a", 30⟩ : Monitor)], m.url = "http://a"
          ∧ ((2 + 1) * 10) % m.interval = 0 :=
  c6_tick_due_set.2.2.1 10 [⟨1, "http://a", 30⟩] 2 "http://a"

/-- What one awaited `client.get(url, follow_redirects=True)` call can do, as
far as `HTTPRequestor.make_request` distinguishes: raise `ConnectError`,
raise `ConnectTimeout` (the client is built with connect timeout
REQUEST_TIMEOUT and no total timeout), or return a final response with a
status code and a measured latency. -/
inductive NetEvent where
  | connectError
  | connectTimeout
  | response (code : Nat) (latency : Rat)
deriving DecidableEq, Repr

/-- Behaviour of `Response.raise_for_status()` in httpx 0.28.1 (the version
pinned in setup.py): it raises `HTTPStatusError` exactly when the final
response is not a 2xx success (`Response.is_success` is
`200 <= status_code < 300`); 1xx and 3xx responses raise as well, unlike
4xx/5xx-only libraries. -/
def raise_for_status_raises (code : Nat) : Bool :=
  !(200 ≤ code && code < 300)

/-- `HTTPRequestor.make_request` (src/task_manager/http_requestor.py, lines
28-65) as a function of the network event: `ConnectError` is caught and
mapped to DNS_ERROR, `ConnectTimeout` to TIMEOUT, a response failing
`raise_for_status` to UNAVAILABLE carrying the code (no latency recorded),
and a surviving response to OK carrying code and latency.  The timestamp is
taken before the request in every branch. -/
def make_request (url : String) (timestamp : Int) (ev : NetEvent) :
    ResponseData :=
  match ev with
  | .connectError => ⟨url, .dns_error, timestamp, none, none⟩
  | .connectTimeout => ⟨url, .timeout, timestamp, none, none⟩
  | .response code latency =>
    if raise_for_status_raises code then
      ⟨url, .unavailable, timestamp, some code, none⟩
    else
      ⟨url, .ok, timestamp, some code, some latency⟩

/-- C7. The claim as frozen is false on the code: a final 304 response —
a 3xx status in the claimed 2xx-3xx OK range, returned as final because 304
is not a followable redirect — is classified UNAVAILABLE, not OK, since
httpx 0.28.1 `raise_for_status` raises for every non-2xx status. -/
theorem c7_probe_classification_counterexample :
    make_request "http://a" 0 (.response 304 1)
      = ⟨"http://a", .unavailable, 0, some 304, none⟩
    ∧ 200 ≤ 304 ∧ 304 ≤ 399 := ⟨rfl, by decide, by decide⟩

/-- C7 (amended). `probe(url)` never raises for an expected network failure
and returns a typed outcome: OK carrying the HTTP code and the response
latency for a 2xx final response, DNS_ERROR for a name-resolution or
connection failure, TIMEOUT when the connection attempt exceeds the connect
timeout, and UNAVAILABLE carrying the HTTP code for any non-2xx final status
(including 1xx and those 3xx responses that are not followed as
redirects). -/
theorem c7_probe_classification_amended (url : String) (ts : Int)
    (code : Nat) (lat : Rat) :
    make_request url ts .connectError = ⟨url, .dns_error, ts, none, none⟩
    ∧ make_request url ts .connectTimeout = ⟨url, .timeout, ts, none, none⟩
    ∧ (200 ≤ code ∧ code < 300 →
        make_request url ts (.response code lat)
          = ⟨url, .ok, ts, some code, some lat⟩)
    ∧ (¬(200 ≤ code ∧ code < 300) →
        make_request url ts (.response code lat)
          = ⟨url, .unavailable, ts, some code, none⟩) := by
  refine ⟨rfl, rfl, ?_, ?_⟩
  · intro h
    have : raise_for_status_raises code = false := by
      simp [raise_for_status_raises, h.1, h.2]
    simp [make_request, this]
  · intro h
    have : raise_for_status_raises code = true := by
      simp only [raise_for_status_raises, Bool.not_eq_eq_eq_not, Bool.not_true,
        Bool.and_eq_false_iff]
      rcases Decidable.not_and_iff_or_not.mp h with h1 | h2
      · left; simpa using h1
      · right; simpa using h2
    simp [make_request, this]

/-- Witness for `c7_probe_classification_amended` at a 200 response and a
503 response. -/
theorem c7_probe_classification_witness :
    make_request "u" 5 (.response 200 2) = ⟨"u", .ok, 5, some 200, some 2⟩
    ∧ make_request "u" 5 (.response 503 2)
        = ⟨"u", .unavailable, 5, some 503, none⟩ :=
  ⟨(c7_probe_classification_amended "u" 5 200 2).2.2.1 (by decide),
    (c7_probe_classification_amended "u" 5 503 2).2.2.2 (by decide)⟩

/-- Integer value of a `ResponseStatus`, as stored by `.value` in
`ResponseData.prepare_for_database`. -/
def responseStatusValue : ResponseStatus → Nat
  | .ok => 0
  | .timeout => 1
  | .dns_error => 2
  | .unavailable => 3

/-- The document passed to `DBHandler.add_check_record`. -/
structure CheckDoc where
  url : String
  status : Nat
  timestamp : Int
  code : Option Nat
  response_time : Option Rat
deriving DecidableEq, Repr

/-- `ResponseData.prepare_for_database` (src/task_manager/models.py): the
document always holds url, status value and timestamp; `code` and
`response_time` are included only when truthy in Python — absent when `None`
and also when equal to 0. -/
def prepare_for_database (d : ResponseData) : CheckDoc :=
  ⟨d.url, responseStatusValue d.status, d.timestamp,
    match d.code with
    | some c => if c = 0 then none else some c
    | none => none,
    match d.response_time with
    | some r => if r = 0 then none else some r
    | none => none⟩

/-- The Python loop `while None in responses_data: responses_data.pop(
responses_data.index(None))` in `TaskManager.run_task`: repeatedly removes
the first `None`, leaving the non-`None` results in order. -/
def purgeNones {α : Type} : List (Option α) → List α
  | [] => []
  | some a :: rest => a :: purgeNones rest
  | none :: rest => purgeNones rest

/-- The externally visible effect of one `TaskManager.run_task` batch: the
documents handed to `add_check_record` and the results forwarded to
`ServiceStatusManager.process_check_result`. -/
structure BatchEffects where
  check_records : List CheckDoc
  status_updates : List ResponseData
deriving DecidableEq, Repr

/-- `TaskManager.run_task` (src/task_manager/manager.py, lines 15-41) given
the gathered probe results, where a result is `none` when the probe was
dropped (its unexpected internal error was swallowed by
`ExceptionHandlingMeta`, which returns `None`): dropped results are purged,
then every surviving result gets a check record and is forwarded to the
status manager. -/
def run_task (results : List (Option ResponseData)) : BatchEffects :=
  let rd := purgeNones results
  ⟨rd.map prepare_for_database, rd⟩

theorem purgeNones_eq_filterMap {α : Type} (l : List (Option α)) :
    purgeNones l = l.filterMap id := by
  induction l with
  | nil => rfl
  | cons o rest ih =>
    cases o with
    | some a => simp [purgeNones, ih]
    | none => simp [purgeNones, ih]

/-- C8. In every batch, a dropped probe result contributes no check record
and no status-machine update — the records written and the results forwarded
are exactly those of the non-dropped results, in order, and their number is
the number of non-dropped results — while every non-dropped result in the
same batch still has its check record written and is still forwarded. -/
theorem c8_dropped_result_isolation (results : List (Option ResponseData)) :
    (run_task results).check_records
      = (results.filterMap id).map prepare_for_database
    ∧ (run_task results).status_updates = results.filterMap id
    ∧ (run_task results).status_updates.length
        = results.countP (·.isSome)
    ∧ (∀ d : ResponseData, some d ∈ results →
        prepare_for_database d ∈ (run_task results).check_records
          ∧ d ∈ (run_task results).status_updates) := by
  refine ⟨by simp [run_task, purgeNones_eq_filterMap],
    by simp [run_task, purgeNones_eq_filterMap], ?_, ?_⟩
  · simp only [run_task, purgeNones_eq_filterMap]
    induction results with
    | nil => rfl
    | cons o rest ih =>
      cases o with
      | some a => simpa [List.countP_cons] using ih
      | none => simpa [List.countP_cons] using ih
  · intro d hd
    have hmem : d ∈ results.filterMap id := by
      exact List.mem_filterMap.mpr ⟨some d, hd, rfl⟩
    constructor
    · simp only [run_task, purgeNones_eq_filterMap]
      exact List.mem_map_of_mem prepare_for_database hmem
    · simpa [run_task, purgeNones_eq_filterMap] using hmem

/-- Witness for `c8_dropped_result_isolation` on a batch with one dropped
result between two surviving ones. -/
theorem c8_dropped_result_isolation_witness :
    (run_task [some ⟨"a", .ok, 0, some 200, some 1⟩, none,
        some ⟨"b", .timeout, 0, none, none⟩]).status_updates.length
      = ([some ⟨"a", .ok, 0, some 200, some 1⟩, none,
          some (⟨"b", .timeout, 0, none, none⟩ : ResponseData)].countP
            (·.isSome))
    ∧ (⟨"b", .timeout, 0, none, none⟩ : ResponseData)
        ∈ (run_task [some ⟨"a", .ok, 0, some 200, some 1⟩, none,
            some ⟨"b", .timeout, 0, none, none⟩]).status_updates :=
  ⟨(c8_dropped_result_isolation _).2.2.1,
    ((c8_dropped_result_isolation _).2.2.2 ⟨"b", .timeout, 0, none, none⟩
      (by simp)).2⟩

/-- `db.models.Check` (without the database `_id`): one immutable record of a
probe, as consumed by `ReportGenerator`.  The `datetime` timestamp is
modelled as integer seconds, so `(a - b).total_seconds()` is `a - b`. -/
structure Check where
  url : String
  status : ResponseStatus
  timestamp : Int
  code : Option Nat := none
  response_time : Option Rat := none
deriving DecidableEq, Repr

/-- `ReportGenerator._is_check_successful`. -/
def is_check_successful (c : Check) : Bool := c.status == .ok

/-- A check that is not successful, the predicate driving the incident
scan. -/
def isFail (c : Check) : Bool := !(is_check_successful c)

/-- `ReportGenerator._get_failure_reason`; for an UNAVAILABLE check with no
recorded code Python formats `None` into the string. -/
def get_failure_reason (c : Check) : String :=
  match c.status with
  | .unavailable =>
    "HTTP " ++ (match c.code with | some n => toString n | none => "None")
  | .dns_error => "Connection Error"
  | .timeout => "Timeout"
  | .ok => "Unknown Error"

/-- A closed incident dict as built by `ReportGenerator._find_incidents`. -/
structure Incident where
  start_time : Int
  end_time : Int
  duration : Int
  reason : String
deriving DecidableEq, Repr

/-- The loop state of `_find_incidents`: the closed incidents so far, the
open incident (its start time and reason) if any, the running
consecutive-failure counter, and the `incident_start` variable.  In the
source `incident_start` is initialised to `None`; here it is initialised to
0 — for every threshold k ≥ 1 it is written (at the first failure of a
streak) before it is ever read (when the counter reaches k), so the initial
value is never observed. -/
structure FState where
  incidents : List Incident
  current : Option (Int × String)
  counter : Nat
  incidentStart : Int
deriving DecidableEq, Repr

/-- One iteration of the `_find_incidents` loop (src/reporting/
report_generator.py, lines 139-194): update `incident_start` and the failure
counter, then open an incident when the counter has reached the threshold
and none is open, or close the open incident on a successful check. -/
def findStep (k : Nat) (st : FState) (c : Check) : FState :=
  let isSucc := is_check_successful c
  let counter := if isSucc then 0 else st.counter + 1
  let start :=
    if !isSucc && st.counter == 0 then c.timestamp else st.incidentStart
  if k ≤ counter ∧ st.current = none then
    ⟨st.incidents, some (start, get_failure_reason c), counter, start⟩
  else
    match st.current with
    | some p =>
      if isSucc then
        ⟨st.incidents ++ [⟨p.1, c.timestamp, c.timestamp - p.1, p.2⟩],
          none, counter, start⟩
      else
        ⟨st.incidents, some p, counter, start⟩
    | none => ⟨st.incidents, none, counter, start⟩

/-- Closing of the loop: an incident still open after the last check is
closed at the timestamp of the last check processed. -/
def finishIncidents (st : FState) (checks : List Check) : List Incident :=
  match st.current, checks.getLast? with
  | some p, some c =>
    st.incidents ++ [⟨p.1, c.timestamp, c.timestamp - p.1, p.2⟩]
  | _, _ => st.incidents

/-- `ReportGenerator._find_incidents` on a history already in timestamp
order (the source first sorts the checks by timestamp; the claims quantify
over timestamp-ordered histories, for which the sort is the identity). -/
def find_incidents (k : Nat) (checks : List Check) : List Incident :=
  finishIncidents (checks.foldl (findStep k) ⟨[], none, 0, 0⟩) checks

/-- The time data of an incident, the part of an incident the claim under
verification speaks about (start, end, duration). -/
structure IncidentTimes where
  start_time : Int
  end_time : Int
  duration : Int
deriving DecidableEq, Repr

/-- Projection of a scanned incident onto its time data. -/
def projTimes (i : Incident) : IncidentTimes :=
  ⟨i.start_time, i.end_time, i.duration⟩

theorem length_dropWhile_le {α : Type} (p : α → Bool) (l : List α) :
    (l.dropWhile p).length ≤ l.length := by
  induction l with
  | nil => simp
  | cons a t ih =>
    rw [List.dropWhile_cons]
    split
    · exact le_trans ih (by simp)
    · simp

/-- Modelled from the spec's description of incident detection: split the
ordered history at maximal runs of consecutive failing checks; a run of
length at least FAILURE_THRESHOLD is an incident whose start is the
timestamp of the first failure of the run and whose end is the timestamp of
the next successful check, or the timestamp of the last check of the window
when the run reaches the end of the history; shorter runs produce no
incident. -/
def incidents_spec (k : Nat) : List Check → List IncidentTimes
  | [] => []
  | c :: rest =>
    if is_check_successful c then incidents_spec k rest
    else
      if k ≤ (c :: rest.takeWhile isFail).length then
        match rest.dropWhile isFail with
        | [] =>
          [⟨c.timestamp,
            ((c :: rest.takeWhile isFail).getLast (by simp)).timestamp,
            ((c :: rest.takeWhile isFail).getLast (by simp)).timestamp
              - c.timestamp⟩]
        | c2 :: _ =>
          ⟨c.timestamp, c2.timestamp, c2.timestamp - c.timestamp⟩
            :: incidents_spec k (rest.dropWhile isFail)
      else incidents_spec k (rest.dropWhile isFail)
termination_by cs => cs.length
decreasing_by
  all_goals simp only [List.length_cons]
  all_goals first
  | omega
  | exact Nat.lt_succ_of_le (length_dropWhile_le _ _)

theorem findStep_succ_none (k : Nat) (hk : 1 ≤ k) (inc : List Incident)
    (n : Nat) (s : Int) (c : Check) (hc : is_check_successful c = true) :
    findStep k ⟨inc, none, n, s⟩ c = ⟨inc, none, 0, s⟩ := by
  have hk0 : ¬ (k ≤ 0) := by omega
  simp [findStep, hc, hk0]

theorem findStep_succ_some (k : Nat) (inc : List Incident)
    (p : Int × String) (n : Nat) (s : Int) (c : Check)
    (hc : is_check_successful c = true) :
    findStep k ⟨inc, some p, n, s⟩ c
      = ⟨inc ++ [⟨p.1, c.timestamp, c.timestamp - p.1, p.2⟩],
          none, 0, s⟩ := by
  simp [findStep, hc]

theorem findStep_fail_some (k : Nat) (inc : List Incident)
    (p : Int × String) (n : Nat) (s : Int) (c : Check)
    (hc : is_check_successful c = false) (hn : 1 ≤ n) :
    findStep k ⟨inc, some p, n, s⟩ c = ⟨inc, some p, n + 1, s⟩ := by
  have hne : (n == 0) = false := by
    simp only [beq_eq_false_iff_ne, ne_eq]
    omega
  simp [findStep, hc, hne]

theorem findStep_fail_none_low (k : Nat) (inc : List Incident) (n : Nat)
    (s : Int) (c : Check) (hc : is_check_successful c = false)
    (hn : 1 ≤ n) (hlt : n + 1 < k) :
    findStep k ⟨inc, none, n, s⟩ c = ⟨inc, none, n + 1, s⟩ := by
  have hne : (n == 0) = false := by
    simp only [beq_eq_false_iff_ne, ne_eq]
    omega
  have hklt : ¬ (k ≤ n + 1) := by omega
  simp [findStep, hc, hne, hklt]

theorem findStep_fail_none_first_low (k : Nat) (inc : List Incident)
    (s : Int) (c : Check) (hc : is_check_successful c = false)
    (hk : 2 ≤ k) :
    findStep k ⟨inc, none, 0, s⟩ c = ⟨inc, none, 1, c.timestamp⟩ := by
  have hklt : ¬ (k ≤ 0 + 1) := by omega
  simp [findStep, hc, hklt]

theorem findStep_fail_none_open (k : Nat) (inc : List Incident) (n : Nat)
    (s : Int) (c : Check) (hc : is_check_successful c = false)
    (hn : 1 ≤ n) (hge : k ≤ n + 1) :
    findStep k ⟨inc, none, n, s⟩ c
      = ⟨inc, some (s, get_failure_reason c), n + 1, s⟩ := by
  have hne : (n == 0) = false := by
    simp only [beq_eq_false_iff_ne, ne_eq]
    omega
  simp [findStep, hc, hne, hge]

theorem findStep_fail_none_first_open (inc : List Incident) (s : Int)
    (c : Check) (hc : is_check_successful c = false) :
    findStep 1 ⟨inc, none, 0, s⟩ c
      = ⟨inc, some (c.timestamp, get_failure_reason c), 1, c.timestamp⟩ := by
  simp [findStep, hc]

theorem foldl_fail_open (k : Nat) (fs : List Check)
    (hall : ∀ c ∈ fs, is_check_successful c = false) :
    ∀ (inc : List Incident) (p : Int × String) (n : Nat) (s : Int), 1 ≤ n →
      fs.foldl (findStep k) ⟨inc, some p, n, s⟩
        = ⟨inc, some p, n + fs.length, s⟩ := by
  induction fs with
  | nil => intro inc p n s _; simp
  | cons c rest ih =>
    intro inc p n s hn
    have h1 : n + (c :: rest).length = (n + 1) + rest.length := by
      simp only [List.length_cons]
      omega
    rw [h1, List.foldl_cons,
      findStep_fail_some k inc p n s c (hall c (by simp)) hn]
    exact ih (fun x hx => hall x (by simp [hx])) inc p (n + 1) s (by omega)

theorem foldl_fail_none_low (k : Nat) (fs : List Check)
    (hall : ∀ c ∈ fs, is_check_successful c = false) :
    ∀ (inc : List Incident) (n : Nat) (s : Int), 1 ≤ n →
      n + fs.length < k →
      fs.foldl (findStep k) ⟨inc, none, n, s⟩
        = ⟨inc, none, n + fs.length, s⟩ := by
  induction fs with
  | nil => intro inc n s _ _; simp
  | cons c rest ih =>
    intro inc n s hn hlen
    have h1 : n + (c :: rest).length = (n + 1) + rest.length := by
      simp only [List.length_cons]
      omega
    have hlen2 : (n + 1) + rest.length < k := by
      simp only [List.length_cons] at hlen
      omega
    rw [h1, List.foldl_cons,
      findStep_fail_none_low k inc n s c (hall c (by simp)) hn (by omega)]
    exact ih (fun x hx => hall x (by simp [hx])) inc (n + 1) s (by omega) hlen2

theorem foldl_fail_none_opens (k : Nat) (fs : List Check)
    (hall : ∀ c ∈ fs, is_check_successful c = false) :
    ∀ (inc : List Incident) (n : Nat) (s : Int), 1 ≤ n → n < k →
      k ≤ n + fs.length →
      ∃ r, fs.foldl (findStep k) ⟨inc, none, n, s⟩
        = ⟨inc, some (s, r), n + fs.length, s⟩ := by
  induction fs with
  | nil =>
    intro inc n s hn hnk hk
    simp only [List.length_nil, Nat.add_zero] at hk
    omega
  | cons c rest ih =>
    intro inc n s hn hnk hk
    have hcfail := hall c (by simp)
    have h1 : n + (c :: rest).length = (n + 1) + rest.length := by
      simp only [List.length_cons]
      omega
    by_cases hop : k ≤ n + 1
    · refine ⟨get_failure_reason c, ?_⟩
      rw [h1, List.foldl_cons, findStep_fail_none_open k inc n s c hcfail hn hop]
      exact foldl_fail_open k rest (fun x hx => hall x (by simp [hx])) inc
        (s, get_failure_reason c) (n + 1) s (by omega)
    · have hlt : n + 1 < k := by omega
      have hk2 : k ≤ (n + 1) + rest.length := by
        simp only [List.length_cons] at hk
        omega
      obtain ⟨r, hr⟩ := ih (fun x hx => hall x (by simp [hx])) inc (n + 1) s
        (by omega) hlt hk2
      refine ⟨r, ?_⟩
      rw [h1, List.foldl_cons,
        findStep_fail_none_low k inc n s c hcfail hn hlt, hr]

theorem foldl_fail_clean_low (k : Nat) (c : Check) (fs : List Check)
    (hall : ∀ x ∈ c :: fs, is_check_successful x = false)
    (hlen : (c :: fs).length < k) (inc : List Incident) (s0 : Int) :
    (c :: fs).foldl (findStep k) ⟨inc, none, 0, s0⟩
      = ⟨inc, none, (c :: fs).length, c.timestamp⟩ := by
  have hk2 : 2 ≤ k := by
    simp only [List.length_cons] at hlen
    omega
  have hc1 : (c :: fs).length = 1 + fs.length := by
    simp only [List.length_cons]
    omega
  rw [hc1, List.foldl_cons,
    findStep_fail_none_first_low k inc s0 c (hall c (by simp)) hk2]
  exact foldl_fail_none_low k fs (fun x hx => hall x (by simp [hx])) inc 1
    c.timestamp (by omega) (by rw [hc1] at hlen; omega)

theorem foldl_fail_clean_open (k : Nat) (hk : 1 ≤ k) (c : Check)
    (fs : List Check)
    (hall : ∀ x ∈ c :: fs, is_check_successful x = false)
    (hlen : k ≤ (c :: fs).length) (inc : List Incident) (s0 : Int) :
    ∃ r, (c :: fs).foldl (findStep k) ⟨inc, none, 0, s0⟩
      = ⟨inc, some (c.timestamp, r), (c :: fs).length, c.timestamp⟩ := by
  have hcfail := hall c (by simp)
  have hfs : ∀ x ∈ fs, is_check_successful x = false :=
    fun x hx => hall x (by simp [hx])
  have hc1 : (c :: fs).length = 1 + fs.length := by
    simp only [List.length_cons]
    omega
  rcases Nat.lt_or_ge 1 k with hk2 | hk1
  · rw [hc1, List.foldl_cons,
      findStep_fail_none_first_low k inc s0 c hcfail (by omega)]
    exact foldl_fail_none_opens k fs hfs inc 1 c.timestamp (by omega)
      (by omega) (by rw [hc1] at hlen; omega)
  · have hk1e : k = 1 := by omega
    subst hk1e
    rw [hc1, List.foldl_cons, findStep_fail_none_first_open inc s0 c hcfail]
    exact ⟨get_failure_reason c,
      foldl_fail_open 1 fs hfs inc (c.timestamp, get_failure_reason c) 1
        c.timestamp (by omega)⟩

theorem finishIncidents_none (inc : List Incident) (n : Nat) (s : Int)
    (cs : List Check) : finishIncidents ⟨inc, none, n, s⟩ cs = inc := by
  cases h : cs.getLast? <;> simp [finishIncidents, h]

theorem finishIncidents_some (inc : List Incident) (p : Int × String)
    (n : Nat) (s : Int) (cs : List Check) (h : cs ≠ []) :
    finishIncidents ⟨inc, some p, n, s⟩ cs
      = inc ++ [⟨p.1, (cs.getLast h).timestamp,
          (cs.getLast h).timestamp - p.1, p.2⟩] := by
  simp [finishIncidents, List.getLast?_eq_getLast cs h]

theorem finishIncidents_eq_of_getLast (st : FState) (cs1 cs2 : List Check)
    (h : cs1.getLast? = cs2.getLast?) :
    finishIncidents st cs1 = finishIncidents st cs2 := by
  simp [finishIncidents, h]

theorem getLast?_append_right {α : Type} (l1 l2 : List α) (h : l2 ≠ []) :
    (l1 ++ l2).getLast? = l2.getLast? := by
  rcases l2 with _ | ⟨b, t⟩
  · exact absurd rfl h
  · rw [List.getLast?_append, List.getLast?_eq_getLast (b :: t) (by simp),
      Option.or_some]

theorem dropWhile_cons_head_false {α : Type} (p : α → Bool) (l : List α)
    (x : α) (xs : List α) (h : l.dropWhile p = x :: xs) : p x = false := by
  induction l with
  | nil => simp at h
  | cons a t ih =>
    rw [List.dropWhile_cons] at h
    by_cases hp : p a
    · rw [if_pos hp] at h
      exact ih h
    · rw [if_neg hp] at h
      cases h
      simpa using hp

theorem incidents_spec_nil (k : Nat) : incidents_spec k [] = [] := by
  simp [incidents_spec]

theorem incidents_spec_cons_succ (k : Nat) (c : Check) (rest : List Check)
    (h : is_check_successful c = true) :
    incidents_spec k (c :: rest) = incidents_spec k rest := by
  rw [incidents_spec]
  simp [h]

theorem incidents_spec_cons_fail_low (k : Nat) (c : Check)
    (rest : List Check) (h : is_check_successful c = false)
    (hlen : (c :: rest.takeWhile isFail).length < k) :
    incidents_spec k (c :: rest)
      = incidents_spec k (rest.dropWhile isFail) := by
  rw [incidents_spec]
  simp only [h, Bool.false_eq_true, if_false]
  rw [if_neg (by omega)]

theorem incidents_spec_cons_fail_high_end (k : Nat) (c : Check)
    (rest : List Check) (h : is_check_successful c = false)
    (hlen : k ≤ (c :: rest.takeWhile isFail).length)
    (hdw : rest.dropWhile isFail = []) :
    incidents_spec k (c :: rest)
      = [⟨c.timestamp,
          ((c :: rest.takeWhile isFail).getLast (by simp)).timestamp,
          ((c :: rest.takeWhile isFail).getLast (by simp)).timestamp
            - c.timestamp⟩] := by
  rw [incidents_spec]
  simp only [h, Bool.false_eq_true, if_false]
  rw [if_pos hlen, hdw]

theorem incidents_spec_cons_fail_high_cons (k : Nat) (c : Check)
    (rest : List Check) (c2 : Check) (rest2 : List Check)
    (h : is_check_successful c = false)
    (hlen : k ≤ (c :: rest.takeWhile isFail).length)
    (hdw : rest.dropWhile isFail = c2 :: rest2) :
    incidents_spec k (c :: rest)
      = ⟨c.timestamp, c2.timestamp, c2.timestamp - c.timestamp⟩
          :: incidents_spec k (c2 :: rest2) := by
  rw [incidents_spec]
  simp only [h, Bool.false_eq_true, if_false]
  rw [if_pos hlen, hdw]

theorem findStep_succ_some_pair (k : Nat) (inc : List Incident) (a : Int)
    (r : String) (n : Nat) (s : Int) (c : Check)
    (hc : is_check_successful c = true) :
    findStep k ⟨inc, some (a, r), n, s⟩ c
      = ⟨inc ++ [⟨a, c.timestamp, c.timestamp - a, r⟩], none, 0, s⟩ :=
  findStep_succ_some k inc (a, r) n s c hc

theorem finishIncidents_some_pair (inc : List Incident) (a : Int)
    (r : String) (n : Nat) (s : Int) (cs : List Check) (h : cs ≠ []) :
    finishIncidents ⟨inc, some (a, r), n, s⟩ cs
      = inc ++ [⟨a, (cs.getLast h).timestamp,
          (cs.getLast h).timestamp - a, r⟩] :=
  finishIncidents_some inc (a, r) n s cs h

theorem find_from_clean (k : Nat) (hk : 1 ≤ k) :
    ∀ (N : Nat) (cs : List Check), cs.length ≤ N →
    ∀ (inc : List Incident) (s0 : Int),
      (finishIncidents (cs.foldl (findStep k) ⟨inc, none, 0, s0⟩) cs).map
          projTimes
        = inc.map projTimes ++ incidents_spec k cs := by
  intro N
  induction N with
  | zero =>
    intro cs hcs inc s0
    have hnil : cs = [] := List.length_eq_zero.mp (Nat.le_zero.mp hcs)
    subst hnil
    simp [finishIncidents_none, incidents_spec_nil]
  | succ N ih =>
    intro cs hcs inc s0
    rcases cs with _ | ⟨c, rest⟩
    · simp [finishIncidents_none, incidents_spec_nil]
    by_cases hsucc : is_check_successful c = true
    · rw [List.foldl_cons, findStep_succ_none k hk inc 0 s0 c hsucc,
        incidents_spec_cons_succ k c rest hsucc]
      rcases rest with _ | ⟨b, t⟩
      · simp only [List.foldl_nil]
        rw [finishIncidents_none]
        simp [incidents_spec_nil]
      · rw [finishIncidents_eq_of_getLast _ _ (b :: t)
          List.getLast?_cons_cons]
        exact ih (b :: t) (by simp only [List.length_cons] at hcs ⊢; omega)
          inc s0
    · rw [Bool.not_eq_true] at hsucc
      have hallrun : ∀ x ∈ c :: rest.takeWhile isFail,
          is_check_successful x = false := by
        intro x hx
        rcases List.mem_cons.mp hx with hx | hx
        · subst hx; exact hsucc
        · have := List.mem_takeWhile_imp hx
          simpa [isFail] using this
      have hsplit : rest.takeWhile isFail ++ rest.dropWhile isFail = rest :=
        List.takeWhile_append_dropWhile isFail rest
      have hfold : (c :: rest).foldl (findStep k) ⟨inc, none, 0, s0⟩
          = (rest.dropWhile isFail).foldl (findStep k)
              ((c :: rest.takeWhile isFail).foldl (findStep k)
                ⟨inc, none, 0, s0⟩) := by
        conv_lhs =>
          rw [show (c :: rest)
              = (c :: rest.takeWhile isFail) ++ rest.dropWhile isFail from by
            rw [List.cons_append, hsplit]]
        rw [List.foldl_append]
      rw [hfold]
      by_cases hkrun : k ≤ (c :: rest.takeWhile isFail).length
      · obtain ⟨r, hopen⟩ := foldl_fail_clean_open k hk c
          (rest.takeWhile isFail) hallrun hkrun inc s0
        rw [hopen]
        rcases hdw : rest.dropWhile isFail with _ | ⟨c2, rest2⟩
        · have htw : rest.takeWhile isFail = rest := by
            rw [hdw] at hsplit
            simpa using hsplit
          simp only [List.foldl_nil]
          rw [finishIncidents_some_pair inc c.timestamp r _ _ (c :: rest)
            (by simp)]
          rw [incidents_spec_cons_fail_high_end k c rest hsucc hkrun hdw]
          rw [htw]
          simp [projTimes]
        · have hc2 : is_check_successful c2 = true := by
            have := dropWhile_cons_head_false isFail rest c2 rest2 hdw
            simpa [isFail] using this
          rw [List.foldl_cons,
            findStep_succ_some_pair k inc c.timestamp r _ c.timestamp c2 hc2]
          rw [incidents_spec_cons_fail_high_cons k c rest c2 rest2 hsucc
            hkrun hdw, incidents_spec_cons_succ k c2 rest2 hc2]
          rcases rest2 with _ | ⟨d, t2⟩
          · simp only [List.foldl_nil]
            rw [finishIncidents_none]
            simp [incidents_spec_nil, projTimes]
          · have hlast : (c :: rest).getLast? = (d :: t2).getLast? := by
              conv_lhs =>
                rw [show (c :: rest)
                    = (c :: rest.takeWhile isFail) ++ (c2 :: d :: t2) from by
                  rw [List.cons_append, ← hdw, hsplit]]
              rw [getLast?_append_right _ _ (by simp),
                List.getLast?_cons_cons]
            rw [finishIncidents_eq_of_getLast _ _ (d :: t2) hlast]
            have hlen2 : (d :: t2).length ≤ N := by
              have h2 : (rest.dropWhile isFail).length ≤ rest.length :=
                length_dropWhile_le _ _
              rw [hdw] at h2
              simp only [List.length_cons] at h2 hcs ⊢
              omega
            have hih := ih (d :: t2) hlen2
              (inc ++ [(⟨c.timestamp, c2.timestamp,
                c2.timestamp - c.timestamp, r⟩ : Incident)]) c.timestamp
            rw [hih]
            simp [projTimes]
      · push_neg at hkrun
        rw [foldl_fail_clean_low k c (rest.takeWhile isFail) hallrun hkrun
          inc s0]
        rw [incidents_spec_cons_fail_low k c rest hsucc hkrun]
        rcases hdw : rest.dropWhile isFail with _ | ⟨c2, rest2⟩
        · simp only [List.foldl_nil]
          rw [finishIncidents_none]
          simp [incidents_spec_nil]
        · have hc2 : is_check_successful c2 = true := by
            have := dropWhile_cons_head_false isFail rest c2 rest2 hdw
            simpa [isFail] using this
          rw [List.foldl_cons,
            findStep_succ_none k hk inc _ c.timestamp c2 hc2,
            incidents_spec_cons_succ k c2 rest2 hc2]
          rcases rest2 with _ | ⟨d, t2⟩
          · simp only [List.foldl_nil]
            rw [finishIncidents_none]
            simp [incidents_spec_nil]
          · have hlast : (c :: rest).getLast? = (d :: t2).getLast? := by
              conv_lhs =>
                rw [show (c :: rest)
                    = (c :: rest.takeWhile isFail) ++ (c2 :: d :: t2) from by
                  rw [List.cons_append, ← hdw, hsplit]]
              rw [getLast?_append_right _ _ (by simp),
                List.getLast?_cons_cons]
            rw [finishIncidents_eq_of_getLast _ _ (d :: t2) hlast]
            have hlen2 : (d :: t2).length ≤ N := by
              have h2 : (rest.dropWhile isFail).length ≤ rest.length :=
                length_dropWhile_le _ _
              rw [hdw] at h2
              simp only [List.length_cons] at h2 hcs ⊢
              omega
            exact ih (d :: t2) hlen2 inc c.timestamp

theorem find_incidents_eq_spec (k : Nat) (hk : 1 ≤ k) (cs : List Check) :
    (find_incidents k cs).map projTimes = incidents_spec k cs := by
  have h := find_from_clean k hk cs.length cs le_rfl [] 0
  simpa [find_incidents] using h

/-- C5. For every check history (in timestamp order, as `_find_incidents`
processes it after sorting) and every threshold k ≥ 1, the incidents found by
the scan are, in start/end/duration, exactly those described by the spec:
an incident opens when the running consecutive-failure streak first reaches
the threshold, its start is the timestamp of the first failure of the
streak, it closes at the timestamp of the next successful check, and an
incident still open at the end of the history closes at the timestamp of the
last check.  In particular, with threshold 3, checks at t0 = 0 (OK),
t1 = 10, t2 = 20, t3 = 30 (all failing) and t4 = 40 (OK) yield exactly one
incident with start 10, end 40 and duration 30 seconds. -/
theorem c5_incident_reconstruction :
    (∀ (k : Nat) (cs : List Check), 1 ≤ k →
      (find_incidents k cs).map projTimes = incidents_spec k cs)
    ∧ find_incidents 3
        [⟨"u", .ok, 0, some 200, none⟩,
         ⟨"u", .unavailable, 10, some 500, none⟩,
         ⟨"u", .unavailable, 20, some 500, none⟩,
         ⟨"u", .unavailable, 30, some 500, none⟩,
         ⟨"u", .ok, 40, some 200, none⟩]
      = [⟨10, 40, 30, "HTTP 500"⟩] :=
  ⟨fun k cs hk => find_incidents_eq_spec k hk cs, by decide⟩

/-- Witness for `c5_incident_reconstruction`: the scan/spec agreement
evaluated at threshold 3 on a short concrete history. -/
theorem c5_incident_reconstruction_witness :
    (1 : Nat) ≤ 3
    ∧ (find_incidents 3
        [⟨"u", .unavailable, 0, some 500, none⟩,
         ⟨"u", .unavailable, 5, some 500, none⟩]).map projTimes
      = incidents_spec 3
        [⟨"u", .unavailable, 0, some 500, none⟩,
         ⟨"u", .unavailable, 5, some 500, none⟩] :=
  ⟨by decide,
    c5_incident_reconstruction.1 3
      [⟨"u", .unavailable, 0, some 500, none⟩,
       ⟨"u", .unavailable, 5, some 500, none⟩] (by decide)⟩

/-- Python's `round` at two decimal places on an exact rational: round half
to even. -/
def round_half_even (q : Rat) : Int :=
  if q - ⌊q⌋ < 1 / 2 then ⌊q⌋
  else if 1 / 2 < q - ⌊q⌋ then ⌊q⌋ + 1
  else if ⌊q⌋ % 2 = 0 then ⌊q⌋ else ⌊q⌋ + 1

/-- `round(x, 2)` of Python, on exact rationals. -/
def round2 (q : Rat) : Rat := (round_half_even (q * 100) : Rat) / 100

/-- The latencies aggregated by `_calculate_uptime_stats`: the
`response_time` values of successful checks for which the value is truthy in
Python — present and different from 0 (`if self._is_check_successful(check)
and check.response_time`). -/
def response_times (checks : List Check) : List Rat :=
  checks.filterMap (fun c =>
    if is_check_successful c then
      match c.response_time with
      | some r => if r = 0 then none else some r
      | none => none
    else none)

/-- Python `max` of a non-empty list (0 on the empty list, which the source
never reaches: aggregates are used only when the list is non-empty). -/
def pymax : List Rat → Rat
  | [] => 0
  | x :: xs => xs.foldl max x

/-- Python `min` of a non-empty list (0 on the empty list, unreachable in
the source). -/
def pymin : List Rat → Rat
  | [] => 0
  | x :: xs => xs.foldl min x

/-- `reporting.models.UptimeStats`. -/
structure UptimeStats where
  total_checks : Nat
  successful_checks : Nat
  failed_checks : Nat
  uptime_percentage : Rat
  downtime_duration : Int
  average_response_time : Rat
  max_response_time : Rat
  min_response_time : Rat
deriving DecidableEq, Repr

/-- `ReportGenerator._calculate_downtime_duration`: total unavailability in
seconds, the sum of the durations of the detected incidents. -/
def calculate_downtime_duration (k : Nat) (checks : List Check) : Int :=
  ((find_incidents k checks).map Incident.duration).sum

/-- `ReportGenerator._calculate_uptime_stats` (src/reporting/
report_generator.py, lines 90-137): the all-zero object on an empty history;
otherwise counts, the uptime percentage rounded to two decimals, the summed
incident durations, and latency aggregates over the truthy latencies of
successful checks (average rounded to two decimals, max and min unrounded),
all three 0 when no such latency exists. -/
def calculate_uptime_stats (k : Nat) (checks : List Check) : UptimeStats :=
  if checks = [] then ⟨0, 0, 0, 0, 0, 0, 0, 0⟩
  else
    let total := checks.length
    let successful := checks.countP (fun c => is_check_successful c)
    let uptime : Rat :=
      if 0 < total then ((successful : Rat) / (total : Rat)) * 100 else 0
    let rts := response_times checks
    if rts = [] then
      ⟨total, successful, total - successful, round2 uptime,
        calculate_downtime_duration k checks, 0, 0, 0⟩
    else
      ⟨total, successful, total - successful, round2 uptime,
        calculate_downtime_duration k checks,
        round2 (rts.sum / (rts.length : Rat)), pymax rts, pymin rts⟩

theorem uptime_stats_characterization (k : Nat) (checks : List Check)
    (h : checks ≠ []) :
    (calculate_uptime_stats k checks).total_checks = checks.length
    ∧ (calculate_uptime_stats k checks).successful_checks
        = checks.countP (fun c => is_check_successful c)
    ∧ (calculate_uptime_stats k checks).failed_checks
        = checks.length - checks.countP (fun c => is_check_successful c)
    ∧ (calculate_uptime_stats k checks).uptime_percentage
        = round2 (((checks.countP (fun c => is_check_successful c) : Rat)
            / (checks.length : Rat)) * 100)
    ∧ (calculate_uptime_stats k checks).downtime_duration
        = calculate_downtime_duration k checks
    ∧ (response_times checks = [] →
        (calculate_uptime_stats k checks).average_response_time = 0
        ∧ (calculate_uptime_stats k checks).max_response_time = 0
        ∧ (calculate_uptime_stats k checks).min_response_time = 0)
    ∧ (response_times checks ≠ [] →
        (calculate_uptime_stats k checks).average_response_time
          = round2 ((response_times checks).sum
              / ((response_times checks).length : Rat))
        ∧ (calculate_uptime_stats k checks).max_response_time
            = pymax (response_times checks)
        ∧ (calculate_uptime_stats k checks).min_response_time
            = pymin (response_times checks)) := by
  have hpos : (0 : Nat) < checks.length := List.length_pos.mpr h
  by_cases hrts : response_times checks = []
  · simp [calculate_uptime_stats, h, hrts, hpos]
  · simp [calculate_uptime_stats, h, hrts, hpos]

/-- A ten-check history with seven OK outcomes, for the concrete uptime
instance. -/
def exampleChecks10 : List Check :=
  [⟨"u", .ok, 0, some 200, some 1⟩, ⟨"u", .ok, 1, some 200, some 1⟩,
   ⟨"u", .ok, 2, some 200, some 1⟩, ⟨"u", .ok, 3, some 200, some 1⟩,
   ⟨"u", .ok, 4, some 200, some 1⟩, ⟨"u", .ok, 5, some 200, some 1⟩,
   ⟨"u", .ok, 6, some 200, some 1⟩, ⟨"u", .timeout, 7, none, none⟩,
   ⟨"u", .timeout, 8, none, none⟩, ⟨"u", .timeout, 9, none, none⟩]

/-- A three-check history with one OK outcome, on which the stored uptime
percentage (33.33) differs from the exact value 100/3. -/
def exampleChecks3 : List Check :=
  [⟨"u", .ok, 0, some 200, none⟩, ⟨"u", .timeout, 1, none, none⟩,
   ⟨"u", .timeout, 2, none, none⟩]

/-- C9. The claim as frozen is false on the code in one point: the stored
uptime percentage is rounded to two decimal places, so for a history of
three checks with one success the stored value is 33.33 while
successful/total*100 is 100/3, and the two differ. -/
theorem c9_uptime_stats_counterexample :
    (calculate_uptime_stats 3 exampleChecks3).uptime_percentage = 3333 / 100
    ∧ ((exampleChecks3.countP (fun c => is_check_successful c) : Rat)
        / (exampleChecks3.length : Rat)) * 100 ≠ 3333 / 100 := by
  constructor
  · have h := (uptime_stats_characterization 3 exampleChecks3
      (by simp [exampleChecks3])).2.2.2.1
    rw [h]
    have h1 : exampleChecks3.countP (fun c => is_check_successful c) = 1 :=
      rfl
    have h3 : exampleChecks3.length = 3 := rfl
    rw [h1, h3]
    norm_num [round2, round_half_even]
  · have h1 : exampleChecks3.countP (fun c => is_check_successful c) = 1 :=
      rfl
    have h3 : exampleChecks3.length = 3 := rfl
    rw [h1, h3]
    norm_num

/-- C9 (amended). For every non-empty history the analyzer's statistics
satisfy: total = number of checks, successful = number of checks with OK
outcome, failed = total - successful, and the uptime percentage is
successful/total*100 rounded to two decimal places (round half to even) —
and 0 for the empty history; the response-time average (rounded to two
decimals), maximum and minimum are computed only over the latencies of
successful checks whose recorded latency is truthy (present and non-zero).
A history of 10 checks of which 7 are OK yields uptime percentage
exactly 70. -/
theorem c9_uptime_stats_amended :
    (∀ (k : Nat) (checks : List Check), checks ≠ [] →
      (calculate_uptime_stats k checks).total_checks = checks.length
      ∧ (calculate_uptime_stats k checks).successful_checks
          = checks.countP (fun c => is_check_successful c)
      ∧ (calculate_uptime_stats k checks).failed_checks
          = checks.length - checks.countP (fun c => is_check_successful c)
      ∧ (calculate_uptime_stats k checks).uptime_percentage
          = round2 (((checks.countP (fun c => is_check_successful c) : Rat)
              / (checks.length : Rat)) * 100)
      ∧ (response_times checks = [] →
          (calculate_uptime_stats k checks).average_response_time = 0
          ∧ (calculate_uptime_stats k checks).max_response_time = 0
          ∧ (calculate_uptime_stats k checks).min_response_time = 0)
      ∧ (response_times checks ≠ [] →
          (calculate_uptime_stats k checks).average_response_time
            = round2 ((response_times checks).sum
                / ((response_times checks).length : Rat))
          ∧ (calculate_uptime_stats k checks).max_response_time
              = pymax (response_times checks)
          ∧ (calculate_uptime_stats k checks).min_response_time
              = pymin (response_times checks)))
    ∧ (∀ k : Nat, (calculate_uptime_stats k []).uptime_percentage = 0)
    ∧ (calculate_uptime_stats 3 exampleChecks10).uptime_percentage = 70 := by
  refine ⟨?_, fun k => rfl, ?_⟩
  · intro k checks h
    obtain ⟨h1, h2, h3, h4, _, h6, h7⟩ :=
      uptime_stats_characterization k checks h
    exact ⟨h1, h2, h3, h4, h6, h7⟩
  · have h := (uptime_stats_characterization 3 exampleChecks10
      (by simp [exampleChecks10])).2.2.2.1
    rw [h]
    have h7 : exampleChecks10.countP (fun c => is_check_successful c) = 7 :=
      rfl
    have h10 : exampleChecks10.length = 10 := rfl
    rw [h7, h10]
    norm_num [round2, round_half_even]

/-- Witness for `c9_uptime_stats_amended` on a two-check history with one
truthy latency. -/
theorem c9_uptime_stats_witness :
    (calculate_uptime_stats 3
        [⟨"u", .ok, 0, some 200, some 2⟩, ⟨"u", .timeout, 1, none, none⟩]
      ).total_checks
      = ([⟨"u", .ok, 0, some 200, some 2⟩,
          (⟨"u", .timeout, 1, none, none⟩ : Check)]).length
    ∧ (calculate_uptime_stats 3
        [⟨"u", .ok, 0, some 200, some 2⟩, ⟨"u", .timeout, 1, none, none⟩]
      ).max_response_time
      = pymax (response_times
          [⟨"u", .ok, 0, some 200, some 2⟩,
           ⟨"u", .timeout, 1, none, none⟩]) :=
  ⟨(c9_uptime_stats_amended.1 3
      [⟨"u", .ok, 0, some 200, some 2⟩, ⟨"u", .timeout, 1, none, none⟩]
      (by simp)).1,
    ((c9_uptime_stats_amended.1 3
      [⟨"u", .ok, 0, some 200, some 2⟩, ⟨"u", .timeout, 1, none, none⟩]
      (by simp)).2.2.2.2.2 (by decide)).2.1⟩

theorem response_times_eq_nil (checks : List Check)
    (h : ∀ c ∈ checks, is_check_successful c = true →
      c.response_time = none ∨ c.response_time = some 0) :
    response_times checks = [] := by
  induction checks with
  | nil => rfl
  | cons c rest ih =>
    have hrest := ih (fun x hx hs => h x (by simp [hx]) hs)
    simp only [response_times, List.filterMap_cons] at hrest ⊢
    by_cases hc : is_check_successful c = true
    · rcases h c (by simp) hc with hrt | hrt <;> simp [hc, hrt, hrest]
    · rw [Bool.not_eq_true] at hc
      simp [hc, hrest]

/-- C10. For the empty history the analyzer returns the all-zero statistics
object and an empty incident list; and for every history in which no
successful check carries a truthy (non-zero) recorded latency the average,
maximum and minimum response times are all 0 — in particular a successful
check whose recorded latency is exactly 0 contributes nothing to the
latency aggregation. -/
theorem c10_empty_and_zero_latency (k : Nat) :
    calculate_uptime_stats k [] = ⟨0, 0, 0, 0, 0, 0, 0, 0⟩
    ∧ find_incidents k [] = []
    ∧ (∀ checks : List Check,
        (∀ c ∈ checks, is_check_successful c = true →
          c.response_time = none ∨ c.response_time = some 0) →
        (calculate_uptime_stats k checks).average_response_time = 0
        ∧ (calculate_uptime_stats k checks).max_response_time = 0
        ∧ (calculate_uptime_stats k checks).min_response_time = 0) := by
  refine ⟨rfl, rfl, ?_⟩
  intro checks h
  by_cases hc : checks = []
  · subst hc
    exact ⟨rfl, rfl, rfl⟩
  · exact (uptime_stats_characterization k checks hc).2.2.2.2.2.1
      (response_times_eq_nil checks h)

/-- Witness for `c10_empty_and_zero_latency` at threshold 3 on a history
whose only successful check has recorded latency exactly 0. -/
theorem c10_empty_and_zero_latency_witness :
    (calculate_uptime_stats 3 [⟨"u", .ok, 0, some 200, some 0⟩]
      ).average_response_time = 0
    ∧ (calculate_uptime_stats 3 [⟨"u", .ok, 0, some 200, some 0⟩]
      ).max_response_time = 0 :=
  ⟨((c10_empty_and_zero_latency 3).2.2 [⟨"u", .ok, 0, some 200, some 0⟩]
      (by decide)).1,
    ((c10_empty_and_zero_latency 3).2.2 [⟨"u", .ok, 0, some 200, some 0⟩]
      (by decide)).2.1⟩

end WebMonitoring
